import Mathlib

/-!
Verification of the persistent topological-naming subsystem of
`src/Mod/Part/App/PartFeature.cpp` (the `Part::Feature` element-name,
element-history, element-correspondence and related-element queries).

The C++ code is shallowly embedded: each function of the source is
translated into a Lean function over explicit data; the external
collaborators (the OCC geometry kernel, `TopoShape` / `ComplexGeoData`
element-map primitives, the document object graph) are parameters of the
embedding, bundled into environment structures whose fields correspond to
the external calls made by the source.  Machine integers are modelled by
`Nat`/`Int` (no overflow is relevant to the properties below), C++ strings
by `String`, and null/empty sentinels by `Option`/`""` as noted per field.
-/

namespace PartFeature

/-- Shape element kinds: the subset of `TopAbs_ShapeEnum` the naming code
dispatches on.  `shape` plays the role of `TopAbs_SHAPE` (no/unknown kind). -/
inductive ShapeKind where
  | vertex | edge | wire | face | shell | solid | compsolid | compound | shape
deriving DecidableEq, Repr

/-- Name of a shape kind as used in index names, matching
`TopoShape::shapeName` ("Vertex", "Edge", ..., an empty string for
`TopAbs_SHAPE`).  `TopoShape.cpp` itself is not under `src/`; the naming
convention is fixed by the index names appearing throughout
`PartFeature.cpp` ("Face1", "Edge1", ...). -/
def ShapeKind.name : ShapeKind → String
  | .vertex => "Vertex"
  | .edge => "Edge"
  | .wire => "Wire"
  | .face => "Face"
  | .shell => "Shell"
  | .solid => "Solid"
  | .compsolid => "CompSolid"
  | .compound => "Compound"
  | .shape => ""

/-- A durable (mapped) element name; the empty string models a null
`Data::MappedName`. -/
abbrev MappedName := String

/-- An index name `(ShapeKind, ordinal)` as in `Data::IndexedName`; ordinal
`0` models an invalid/empty index name. -/
structure IndexedName where
  kind : ShapeKind
  index : Nat
deriving DecidableEq, Repr

/-- Validity of an index name (`Data::IndexedName::operator bool`). -/
def IndexedName.isValid (i : IndexedName) : Bool := i.index ≠ 0

/-- A `Data::MappedElement`: a durable name paired with an index name. -/
structure MappedElement where
  name : MappedName
  index : IndexedName
deriving DecidableEq, Repr

/-- Strip a literal character-list front from a character list, returning
the remainder on success. -/
def stripChars : List Char → List Char → Option (List Char)
  | [], rest => some rest
  | _, [] => none
  | p :: ps, c :: cs => if p = c then stripChars ps cs else none

/-- Parse a decimal ordinal from a character list; the whole list must be
digits and nonempty. -/
def parseOrdinal (acc : Nat) : List Char → Option Nat
  | [] => some acc
  | c :: cs =>
    if c.isDigit then parseOrdinal (acc * 10 + (c.toNat - '0'.toNat)) cs else none

/-- Parse one kind's index name ("Face3" for `face`). -/
def parseKindIndex (k : ShapeKind) (cs : List Char) : Option IndexedName :=
  match stripChars k.name.toList cs with
  | none => none
  | some rest =>
    match rest with
    | [] => none
    | _ =>
      match parseOrdinal 0 rest with
      | some n => if n = 0 then none else some ⟨k, n⟩
      | none => none

/-- All parseable shape kinds, in an order in which no kind name is a
front of another. -/
def kindList : List ShapeKind :=
  [.vertex, .edge, .wire, .face, .shell, .solid, .compsolid, .compound]

/-- Parse an index name from a string, as `Data::IndexedName(name)` and
`TopoShape::shapeTypeAndIndex` do (both live outside `src/`; the format
"KindN" is fixed by their use sites in `PartFeature.cpp`).  Returns `none`
for anything that is not a kind name followed by a positive ordinal. -/
def parseIndexedName (s : String) : Option IndexedName :=
  kindList.foldr (fun k acc => (parseKindIndex k s.toList).orElse (fun _ => acc)) none

/-- Index name from a string with the invalid name `⟨shape, 0⟩` as the
parse-failure value, as constructing `Data::IndexedName` from an
unrecognized string yields an invalid (false) name. -/
def IndexedName.ofString (s : String) : IndexedName :=
  (parseIndexedName s).getD ⟨.shape, 0⟩

/-- Shape kind of an element name string, as `TopoShape::shapeType(name,
true)` used at `PartFeature.cpp:657`: the kind whose name starts the
string, `shape` when none does. -/
def shapeTypeOfName (s : String) : ShapeKind :=
  match parseIndexedName s with
  | some i => i.kind
  | none => .shape

/-- Marker that introduces a new-style mapped element name, modelling
`Data::ComplexGeoData::elementMapPrefix()` (defined outside `src/`; only
its role as a recognizable front marker matters here). -/
def elementMapMarker : String := ";"

/-- Test for a new-style mapped element name and return the part after the
marker, as `Data::ComplexGeoData::isMappedElement` (outside `src/`)
returns a pointer past the marker or null. -/
def isMappedElement (s : String) : Option String :=
  (stripChars elementMapMarker.toList s.toList).map String.mk

/-- Reserved index marker, modelling `Data::ComplexGeoData::indexPostfix()`
(defined outside `src/`): the reserved text that introduces the numeric
disambiguation part of a combo name. -/
def indexMarkerText : String := ";:I"

/-!   Element map (claim C2).

The per-shape element map with its forward (durable name to index name)
and reverse tables lives in `Data::ComplexGeoData` / `TopoShape`, which
are not under `src/`; it is modelled here from the spec (section 3 "Element
Map" and section 4.1).
-/

/-- Modelled from the spec: the per-shape element map, with a `forward`
table (durable name to index name) and a `reverse` table (index name to
durable name), each an association list queried front to back. -/
structure ElementMap where
  forward : List (MappedName × IndexedName)
  reverse : List (IndexedName × MappedName)

/-- First value associated to a key in an association list. -/
def assocFind {α β : Type} [DecidableEq α] (l : List (α × β)) (a : α) : Option β :=
  match l with
  | [] => none
  | p :: rest => if p.1 = a then some p.2 else assocFind rest a

/-- Lookup of a durable name in the forward table (`getIndexName` /
`TopoShape::getIndexedName` direction). -/
def ElementMap.lookupIndex (m : ElementMap) (d : MappedName) : Option IndexedName :=
  assocFind m.forward d

/-- Lookup of an index name in the reverse table (the `getElementName`
direction used by `Feature::getExportElementName`). -/
def ElementMap.lookupName (m : ElementMap) (i : IndexedName) : Option MappedName :=
  assocFind m.reverse i

/-- Modelled from the spec: the combo-name encoding produced by
`TopoShape::setElementComboName` (not under `src/`): the lower-element
durable names concatenated with the operation text. -/
def encodeCombo (names : List MappedName) (op : String) : MappedName :=
  elementMapMarker ++ String.intercalate "," names ++ op

/-- Modelled from the spec: `TopoShape::setElementComboName` (not under
`src/`), per spec section 4.1: synthesize the combo name and "Store the
result in both maps before returning". -/
def setElementComboName (m : ElementMap) (idx : IndexedName) (names : List MappedName)
    (op : String) : MappedName × ElementMap :=
  let combo := encodeCombo names op
  (combo, ⟨(combo, idx) :: m.forward, (idx, combo) :: m.reverse⟩)

/-- Consistency invariant of an element map, from spec section 3: a durable
name maps to at most one index name, forward and reverse tables agreeing. -/
def ElementMap.WellFormed (m : ElementMap) : Prop :=
  ∀ i d, m.lookupName i = some d → m.lookupIndex d = some i

/-!   Combo-name synthesis (claims C3, C4): the high-level-element branch of
`Feature::getExportElementName`, `PartFeature.cpp:183-298`. -/

/-- Lower bound target of lower-element names for a combo name
(`PartFeature.cpp:181`). -/
def MinLowerTopoNames : Nat := 3

/-- Upper bound of lower-element names for a combo name
(`PartFeature.cpp:182`). -/
def MaxLowerTopoNames : Nat := 10

/-- One lower-kind sub-shape of the higher element being named, as seen by
the collection loop (`PartFeature.cpp:226-233`): its durable name
(`ss.getMappedName(idxName)`; `none` models a null name, which the loop
skips) and `shape.findAncestors(ss.getShape(), res.first)`, the ordinals of
the higher elements of the target kind it belongs to. -/
structure LowerEntry where
  name : Option MappedName
  ancestors : List Nat
deriving DecidableEq, Repr

/-- Collection loop of `Feature::getExportElementName`
(`PartFeature.cpp:221-233`): walk the lower sub-shapes, skip unnamed ones,
record `(name.size(), ancestors)` in `indices` and the name in `names`,
count entries whose ancestor list is a singleton, and break once that count
reaches `MinLowerTopoNames`.  The third component reports whether the loop
broke early. -/
def collectLower : List LowerEntry → Nat → List (Nat × List Nat) → List MappedName →
    List (Nat × List Nat) × List MappedName × Bool
  | [], _, indices, names => (indices, names, false)
  | e :: rest, count, indices, names =>
    match e.name with
    | none => collectLower rest count indices names
    | some n =>
      let indices2 := indices ++ [(n.length, e.ancestors)]
      let names2 := names ++ [n]
      if e.ancestors.length = 1 then
        if MinLowerTopoNames ≤ count + 1 then (indices2, names2, true)
        else collectLower rest (count + 1) indices2 names2
      else collectLower rest count indices2 names2

/-- Collection result for a higher element's lower entries. -/
def comboCollected (entries : List LowerEntry) :
    List (Nat × List Nat) × List MappedName × Bool :=
  collectLower entries 0 [] []

/-- Erase loop of `PartFeature.cpp:248-255`: drop from `anc` (scanned left
to right, `kept` accumulating survivors) every ordinal not contained in
`keep`, stopping the scan as soon as the vector's size reaches one; the
unscanned tail then stays. -/
def eraseAncestors (keep : List Nat) : List Nat → List Nat → List Nat
  | kept, [] => kept
  | kept, a :: rest =>
    if keep.contains a then eraseAncestors keep (kept ++ [a]) rest
    else if kept.length + rest.length = 1 then kept ++ rest
    else eraseAncestors keep kept rest

/-- Fold of the sorted-entry loop of `PartFeature.cpp:243-265`, carrying the
surviving ancestor set `anc`, the (otherwise unused) `sorted` name list and
its insertion cursor `pos`; note that `sorted` receives `names0[v.first]`
where `v.first` holds the name's size — translated with an out-of-range
default as the value is dead.  Breaks once `anc` was a singleton and
`sorted` holds at least `MinLowerTopoNames` names; returns the final
surviving ancestor set. -/
def sortPhaseGo (names0 : List MappedName) :
    List (Nat × List Nat) → List Nat → List MappedName → Nat → List Nat
  | [], anc, _, _ => anc
  | v :: rest, anc, sorted, pos =>
    let size := anc.length
    let anc2 := if size = 0 then v.2
                else if 1 < size then eraseAncestors v.2 [] anc
                else anc
    let cond := size = 1 ∨ size ≠ anc2.length
    let sorted2 := if cond then sorted.insertIdx pos (names0.getD v.1 "")
                   else sorted ++ [names0.getD v.1 ""]
    let pos2 := if cond then pos + 1 else pos
    if size = 1 ∧ MinLowerTopoNames ≤ sorted2.length then anc2
    else sortPhaseGo names0 rest anc2 sorted2 pos2

/-- Stable insertion of an element into a sorted list: placed before the
first entry it compares less-or-equal to, so equal entries keep their
original order. -/
def stableSortedInsert {α : Type} (le : α → α → Bool) (a : α) : List α → List α
  | [] => [a]
  | b :: bs => if le a b then a :: b :: bs else b :: stableSortedInsert le a bs

/-- Stable sort by a boolean comparison, modelling the `std::stable_sort`
of `PartFeature.cpp:236-239` (ascending, equal keys keeping their order). -/
def stableSortBy {α : Type} (le : α → α → Bool) (l : List α) : List α :=
  l.foldr (stableSortedInsert le) []

/-- Disambiguation phase of `PartFeature.cpp:235-266`: stable-sort the
collected entries by ancestor-set size and fold them, intersecting the
ancestor sets. -/
def sortPhase (indices : List (Nat × List Nat)) (names0 : List MappedName) : List Nat :=
  sortPhaseGo names0
    (stableSortBy (fun a b => decide (a.2.length ≤ b.2.length)) indices) [] [] 0

/-- Surviving ancestor set after synthesis: the C++ `ancestors` vector is
populated only inside the `names.size() >= MaxLowerTopoNames` branch
(`PartFeature.cpp:235`) and stays empty otherwise. -/
def comboSurvivors (entries : List LowerEntry) : List Nat :=
  let c := comboCollected entries
  if MaxLowerTopoNames ≤ c.2.1.length then sortPhase c.1 c.2.1 else []

/-- Operation text of the synthesized combo name (`PartFeature.cpp:270-280`):
empty unless the surviving ancestor set still holds more than one ordinal,
in which case it is the reserved index marker followed by the position of
this element's ordinal in that set (left empty if, impossibly, the ordinal
is absent — the code asserts there). -/
def comboOp (entries : List LowerEntry) (ordinal : Nat) : String :=
  let s := comboSurvivors entries
  if 1 < s.length then
    if s.indexOf ordinal = s.length then ""
    else indexMarkerText ++ Nat.repr (s.indexOf ordinal)
  else ""

/-- Result of the combo-name synthesis branch: the lower names encoded (after
`names.resize(std::min(names.size(), MaxLowerTopoNames))`), the surviving
ancestor set, the operation text, and whether a combo name was set at all
(`PartFeature.cpp:269`: only when at least one named lower element was
found). -/
structure ComboResult where
  names : List MappedName
  survivors : List Nat
  op : String
  made : Bool
deriving DecidableEq, Repr

/-- Combo-name synthesis for the higher element with ordinal `ordinal`
(`Feature::getExportElementName`, `PartFeature.cpp:220-295`, the
`lower != TopAbs_SHAPE` branch with a valid index name and no mapped
name). -/
def synthCombo (entries : List LowerEntry) (ordinal : Nat) : ComboResult :=
  let c := comboCollected entries
  let names := c.2.1.take (min c.2.1.length MaxLowerTopoNames)
  if names.isEmpty then ⟨names, comboSurvivors entries, "", false⟩
  else ⟨names, comboSurvivors entries, comboOp entries ordinal, true⟩

/-- Definition taken from the spec's words, for comparison with the code
(spec section 4.1): the "combined ancestor-sets" of the chosen lower
elements, i.e. the intersection of the ancestor sets of the encoded
entries; the spec requires this to "uniquely identify this higher
element". -/
def specCombinedAncestors (entries : List LowerEntry) : List Nat :=
  let c := comboCollected entries
  match c.1.take (min c.2.1.length MaxLowerTopoNames) with
  | [] => []
  | v :: rest => rest.foldl (fun acc w => acc.filter (fun a => w.2.contains a)) v.2

/-- Fixture: a wire with a single named edge that alone identifies it. -/
def wireOneEdge : List LowerEntry := [⟨some "e1", [1]⟩]

/-- Fixture: three lower elements, each alone identifying the higher one. -/
def threeSingletons : List LowerEntry :=
  [⟨some "a", [1]⟩, ⟨some "b", [1]⟩, ⟨some "c", [1]⟩]

/-- Fixture: two higher elements (ordinals 1 and 2) sharing the same four
named faces, so neither is identified uniquely by them. -/
def sharedFourFaces : List LowerEntry :=
  [⟨some "f1", [1, 2]⟩, ⟨some "f2", [1, 2]⟩, ⟨some "f3", [1, 2]⟩, ⟨some "f4", [1, 2]⟩]

/-- Fixture: two higher elements (ordinals 1 and 2) sharing the same ten
named faces, enough to enter the disambiguation branch. -/
def sharedTenFaces : List LowerEntry :=
  [⟨some "f0", [1, 2]⟩, ⟨some "f1", [1, 2]⟩, ⟨some "f2", [1, 2]⟩, ⟨some "f3", [1, 2]⟩,
   ⟨some "f4", [1, 2]⟩, ⟨some "f5", [1, 2]⟩, ⟨some "f6", [1, 2]⟩, ⟨some "f7", [1, 2]⟩,
   ⟨some "f8", [1, 2]⟩, ⟨some "f9", [1, 2]⟩]

/-!   Combo-name decoding (claim C5): the reverse branch of
`Feature::getExportElementName`, `PartFeature.cpp:299-359`, entered when a
stored combo name no longer resolves directly to an index name. -/

/-- Environment of the decode branch: resolution of one encoded lower name
to a current index name (`shape.getIndexedName`, none models a null
result), retrieval of the sub-shape (`shape.getSubShape`, none models a
null shape), and the ancestor search (`shape.findAncestors`), all
implemented by `TopoShape` outside this function. -/
structure DecodeEnv where
  getIndexedName : MappedName → Option IndexedName
  getSubShape : IndexedName → Option Nat
  findAncestors : Nat → ShapeKind → List Nat

/-- Candidate fold of `PartFeature.cpp:320-345`: resolve each encoded lower
name; a failed resolution or a null sub-shape clears the candidate set and
stops; the first ancestor set encountered seeds the candidates (so leading
empty ancestor sets are skipped), later ones intersect into it, stopping
when nothing survives. -/
def decodeAncestors (env : DecodeEnv) (kind : ShapeKind) :
    List MappedName → List Nat → List Nat
  | [], anc => anc
  | n :: rest, anc =>
    match env.getIndexedName n with
    | none => []
    | some idx =>
      match env.getSubShape idx with
      | none => []
      | some ss =>
        let current := env.findAncestors ss kind
        if anc.isEmpty then decodeAncestors env kind rest current
        else
          let anc2 := anc.filter (fun a => current.contains a)
          if anc2.isEmpty then anc2 else decodeAncestors env kind rest anc2

/-- Whether one encoded lower name resolves in the current shape: its index
name is found and the corresponding sub-shape is not null
(`PartFeature.cpp:321-331`). -/
def lowerResolves (env : DecodeEnv) (n : MappedName) : Bool :=
  match env.getIndexedName n with
  | none => false
  | some i => (env.getSubShape i).isSome

/-- Fixture for decoding: lower name "a" resolves to sub-shape 1 with no
wire ancestors, "b" resolves to sub-shape 2 inside wire 7, and "c" fails
to resolve. -/
def decodeDemoEnv : DecodeEnv :=
  ⟨fun n => if n = "a" then some ⟨.edge, 1⟩ else if n = "b" then some ⟨.edge, 2⟩ else none,
   fun i => some i.index,
   fun ss _ => if ss = 2 then [7] else []⟩

/-- Ordinal embedded in a combo name's trailing text, as parsed at
`PartFeature.cpp:346-352`: meaningful only when the text starts with the
reserved index marker and the digits parse. -/
def comboOrdinalOf (tail : String) : Option Nat :=
  match stripChars indexMarkerText.toList tail.toList with
  | some rest => parseOrdinal 0 rest
  | none => none

/-- Candidate set after applying the embedded disambiguation ordinal
(`PartFeature.cpp:346-352`): when more than one candidate survives and the
tail text carries a valid in-range ordinal, the set is narrowed to that
single candidate. -/
def applyComboOrdinal (tail : String) (anc : List Nat) : List Nat :=
  if 1 < anc.length then
    match comboOrdinalOf tail with
    | some i => if i < anc.length then [anc.getD i 0] else anc
    | none => anc
  else anc

/-- Combo-name decoding (`PartFeature.cpp:318-356`): given the encoded lower
names and the trailing text extracted by `decodeElementComboName` (which
lives outside `src/`), re-identify the higher element of kind `kind`,
returning its current ordinal exactly when a single candidate remains. -/
def decodeCombo (env : DecodeEnv) (kind : ShapeKind) (names : List MappedName)
    (tail : String) : Option Nat :=
  let anc := applyComboOrdinal tail (decodeAncestors env kind names [])
  match anc with
  | [a] => some a
  | _ => none

/-- Definition taken from the spec's words, for comparison with the code
(spec section 4.1): the intersection of the ancestor sets of all encoded
sub-element names at the target kind, `none` when any encoded name fails to
resolve. -/
def specDecodeIntersection (env : DecodeEnv) (kind : ShapeKind) :
    List MappedName → Option (List Nat) → Option (List Nat)
  | [], acc => acc
  | n :: rest, acc =>
    match env.getIndexedName n with
    | none => none
    | some idx =>
      match env.getSubShape idx with
      | none => none
      | some ss =>
        let current := env.findAncestors ss kind
        match acc with
        | none => specDecodeIntersection env kind rest (some current)
        | some l => specDecodeIntersection env kind rest
            (some (l.filter (fun a => current.contains a)))

/-!   History tracing (claim C1): `Feature::getElementHistory`
(`PartFeature.cpp:513-590`) and the static `getElementSource`
(`PartFeature.cpp:441-511`).  Document objects and documents are modelled
by their integer identities; a shape is modelled by the identity of the
object whose shape it is (`none` models a null shape). -/

/-- External collaborators of the two history walks.  `seeThroughLinks`
abstracts the `getLinkedObject` depth loop (`PartFeature.cpp:553-562` and
`464-473`, external `App::DocumentObject` behaviour): it yields the feature
the loop settles on, whose document the walk then uses. -/
structure HistEnv where
  /-- Shape of an object (`Feature::getTopoShape(obj)`), `none` = null. -/
  topoShape : Nat → Option Nat
  /-- Owner reported by `getTopoShape(obj, 0, false, 0, &owner)`. -/
  shapeOwner : Nat → Option Nat
  /-- One-step generation record `shape.getElementHistory(element,
  &original, &history)`: tag (0 = no record), original name, history. -/
  histStep : Option Nat → MappedName → Int × MappedName × List MappedName
  /-- Index name of a durable name in a shape (`shape.getIndexedName`). -/
  getIndexedName : Option Nat → MappedName → Option IndexedName
  /-- Durable name of an index name (`shape.getMappedName(idx, true)`). -/
  getMappedNameOf : Option Nat → IndexedName → MappedName
  /-- Element type code of a name (`shape.elementType`), 0 = none. -/
  elementTypeOf : Option Nat → MappedName → Nat
  seeThroughLinks : Nat → Nat
  /-- Document of an object (`obj->getDocument()`). -/
  docOf : Nat → Nat
  /-- Document of `GeoFeature::getElementOwner(element)` when it exists
  (`PartFeature.cpp:563-567` and `474-478`). -/
  elementOwnerDoc : Nat → MappedName → Option Nat
  /-- Object of a document by identity tag (`doc->getObjectByID`). -/
  getObjectByID : Nat → Nat → Option Nat
  /-- Normalization `Data::ComplexGeoData::newElementName` (outside
  `src/`). -/
  newElementName : String → String

/-- One record of `Feature::getElementHistory` (`Data::HistoryItem`). -/
structure HistoryItem where
  obj : Option Nat
  element : MappedName
  index : Option IndexedName
  intermediates : List MappedName
  tag : Int
deriving DecidableEq, Repr

/-- Loop-carried state of `Feature::getElementHistory`. -/
structure HistState where
  feature : Nat
  shape : Option Nat
  element : MappedName
  prev : MappedName
  ret : List HistoryItem
deriving Repr

/-- The `do { ... } while(feature)` loop of `Feature::getElementHistory`
(`PartFeature.cpp:532-588`), translated with explicit fuel: `none` means
the given number of iterations did not complete the walk.  The source loop
has no cycle detection of its own; each iteration resolves the element's
index (falling back to the previous step's last intermediate name,
lines 537-544), follows the generation tag to the producing object, and
either stops (no tag, non-recursive query, missing object, or a same-type
mismatch) or continues from that object's shape. -/
def historyLoop (env : HistEnv) (recursive : Bool) (etype : Nat) :
    Nat → HistState → Option (List HistoryItem)
  | 0, _ => none
  | fuel + 1, st =>
    let s := env.histStep st.shape st.element
    let tag := s.1
    let original := s.2.1
    let inter0 := s.2.2
    let fb :=
      match env.getIndexedName st.shape st.element with
      | some i => (st.element, some i, inter0)
      | none =>
        if st.prev ≠ "" then
          match env.getIndexedName st.shape st.prev with
          | some i => (st.prev, some i, st.element :: inter0)
          | none => (st.element, none, inter0)
        else (st.element, none, inter0)
    let inter := fb.2.2
    let prev2 := (inter.getLast?).getD ""
    let item : HistoryItem := ⟨some st.feature, fb.1, fb.2.1, inter, 0⟩
    let obj : Option Nat :=
      if tag ≠ 0 then
        let f2 := env.seeThroughLinks st.feature
        let doc :=
          match env.elementOwnerDoc f2 st.element with
          | some d => d
          | none => env.docOf f2
        env.getObjectByID doc tag.natAbs
      else none
    if !recursive then some (st.ret ++ [item, ⟨obj, original, none, [], tag⟩])
    else
      match obj with
      | none => some (st.ret ++ [item])
      | some f2 =>
        if etype ≠ 0 ∧ inter.any (fun h => env.elementTypeOf st.shape h ≠ etype) then
          some (st.ret ++ [item])
        else
          let shape2 := env.topoShape f2
          if etype ≠ 0 ∧ env.elementTypeOf shape2 original ≠ etype then
            some (st.ret ++ [item])
          else
            historyLoop env recursive etype fuel ⟨f2, shape2, original, prev2, st.ret ++ [item]⟩

/-- Entry of `Feature::getElementHistory` (`PartFeature.cpp:513-531`):
resolve the starting name (an index name is mapped through the shape, a
new-style name is normalized, anything else is used as is), fix the
element type filter when `sameType` is requested, and run the walk. -/
def getElementHistory (env : HistEnv) (feature : Nat) (name : String)
    (recursive sameType : Bool) (fuel : Nat) : Option (List HistoryItem) :=
  let shape := env.topoShape feature
  let element : MappedName :=
    match parseIndexedName name with
    | some idx => env.getMappedNameOf shape idx
    | none =>
      match isMappedElement name with
      | some _ => env.newElementName name
      | none => name
  let etype := if sameType then env.elementTypeOf shape element else 0
  historyLoop env recursive etype fuel ⟨feature, shape, element, "", []⟩

/-- Loop-carried state of the static `getElementSource`
(`PartFeature.cpp:441-511`): the current shape owner, the shape, the
accumulated `(tag, name)` chain, the visited set of `(document, tag)`
pairs, and whether the circular-element-mapping warning fired. -/
structure SrcState where
  owner : Option Nat
  shape : Option Nat
  ret : List (Int × MappedName)
  tagSet : List (Option Nat × Int)
  warned : Bool
deriving DecidableEq, Repr

/-- The `while(1)` loop of `getElementSource` (`PartFeature.cpp:449-509`),
with fuel; the second component is true when the walk finished on its own.
Each iteration reads the last chain entry's one-step record; a zero tag
ends the walk.  With a live owner the producing object is looked up in the
resolved document and a same-type mismatch in the history names ends the
walk; then, before the new `(tag, original)` entry is pushed, the pair
`(document, tag)` is recorded in the visited set — unless the tag equals
the previous entry's tag — and a revisited pair stops the walk with the
"circular element mapping" warning (`PartFeature.cpp:498-507`). -/
def elementSourceLoop (env : HistEnv) (ty : Nat) :
    Nat → SrcState → SrcState × Bool
  | 0, st => (st, false)
  | fuel + 1, st =>
    let last := (st.ret.getLast?).getD (0, "")
    let s := env.histStep st.shape last.2
    let tag := s.1
    let original := s.2.1
    let history := s.2.2
    if tag = 0 then (st, true)
    else
      let resolved : Option Nat × Option Nat × Bool :=
        match st.owner with
        | some o =>
          let o2 := env.seeThroughLinks o
          let doc :=
            match env.elementOwnerDoc o2 last.2 with
            | some d => d
            | none => env.docOf o2
          (env.getObjectByID doc tag.natAbs, some doc,
            decide (ty ≠ 0 ∧ history.any (fun h => env.elementTypeOf st.shape h ≠ ty)))
        | none => (none, none, false)
      if resolved.2.2 then (st, true)
      else
        let stepped : Option Nat × Option Nat × Option Nat :=
          match resolved.1 with
          | none => (none, none, none)
          | some ob => (env.topoShape ob, env.shapeOwner ob, resolved.2.1)
        let shape2 := stepped.1
        let owner2 := stepped.2.1
        let doc2 := stepped.2.2
        if ty ≠ 0 ∧ env.elementTypeOf shape2 original ≠ ty then
          ({ st with owner := owner2, shape := shape2 }, true)
        else
          if (tag.natAbs : Int) ≠ last.1 ∧ (doc2, tag) ∈ st.tagSet then
            ({ st with owner := owner2, shape := shape2, warned := true }, true)
          else
            let tagSet2 :=
              if (tag.natAbs : Int) ≠ last.1 then (doc2, tag) :: st.tagSet else st.tagSet
            elementSourceLoop env ty fuel
              ⟨owner2, shape2, st.ret ++ [(tag, original)], tagSet2, st.warned⟩

/-- Entry of the static `getElementSource` (`PartFeature.cpp:441-448`): the
chain starts with `(0, name)`; the hasher assignment of lines 455-456 has
no observable counterpart in this model. -/
def getElementSource (env : HistEnv) (owner : Option Nat) (shape : Option Nat)
    (name : MappedName) (ty : Nat) (fuel : Nat) : SrcState × Bool :=
  elementSourceLoop env ty fuel ⟨owner, shape, [(0, name)], [], false⟩

/-- Fixture for claim C1: a one-feature document whose generation records
point back at the feature itself (a cyclic tag): object 1 in document 1,
whose shape's every element-history step reports tag 1 and original name
"e1". -/
def cyclicHistEnv : HistEnv :=
  { topoShape := fun _ => some 1
    shapeOwner := fun _ => some 1
    histStep := fun _ _ => (1, "e1", [])
    getIndexedName := fun _ _ => some ⟨.edge, 1⟩
    getMappedNameOf := fun _ _ => "e1"
    elementTypeOf := fun _ _ => 0
    seeThroughLinks := fun o => o
    docOf := fun _ => 1
    elementOwnerDoc := fun _ _ => none
    getObjectByID := fun _ t => some t
    newElementName := fun s => s }

/-- Fixture for claim C1's visited-set behaviour: two objects in document 1
whose generation records alternate (object 1's element "e1" reports tag 2
with original "e2"; object 2's element "e2" reports tag 1 with original
"e1"), so the third step re-encounters the pair (document 1, tag 2). -/
def altCycleEnv : HistEnv :=
  { topoShape := fun o => some o
    shapeOwner := fun o => some o
    histStep := fun sh _ =>
      match sh with
      | some 1 => (2, "e2", [])
      | some 2 => (1, "e1", [])
      | _ => (0, "", [])
    getIndexedName := fun _ _ => none
    getMappedNameOf := fun _ _ => ""
    elementTypeOf := fun _ _ => 0
    seeThroughLinks := fun o => o
    docOf := fun _ => 1
    elementOwnerDoc := fun _ _ => none
    getObjectByID := fun _ t => some t
    newElementName := fun s => s }

/-!   Correspondence search (claims C6, C7, C8):
`Feature::getElementFromSource`, `PartFeature.cpp:592-707`. -/

/-- External collaborators of one `getElementFromSource` call.  The target
object, source object, and the two subnames are fixed for the call, so the
fields carry the per-call results of the external queries on them. -/
structure FromSrcEnv where
  /-- Whether the `obj` argument is null (`PartFeature.cpp:600`). -/
  objNull : Bool
  /-- Whether the `src` argument is null. -/
  srcNull : Bool
  /-- Identity of the owner reported for the source shape
  (`owner->getID()`, used by the history callback). -/
  ownerId : Nat
  /-- New-style part of `GeoFeature::resolveElement(src, srcSub)`. -/
  objElementFirst : String
  /-- Old-style part of `GeoFeature::resolveElement(src, srcSub)`. -/
  objElementSecond : String
  /-- Sub-shape count of the target shape per kind
  (`shape.countSubShapes`). -/
  countTarget : ShapeKind → Nat
  /-- Sub-shape count of the source shape per kind. -/
  countSource : ShapeKind → Nat
  /-- Durable name of an index name in the target shape
  (`shape.getMappedName(idx)`). -/
  getMappedName : IndexedName → MappedName
  /-- Durable name with on-demand construction
  (`shape.getMappedName(idx, true)`). -/
  getMappedNameAllow : IndexedName → MappedName
  /-- History steps `shape.traceElement` feeds its callback for a durable
  name, as `(step name, generating tag)` pairs in visit order
  (`TopoShape::traceElement` lives outside `src/`; it stops as soon as the
  callback returns true, which the folds below mirror). -/
  traceSteps : MappedName → List (MappedName × Int)
  /-- Result of `GeoFeature::resolveElement(obj, sub + checkingSubname)`
  inside the callback (`PartFeature.cpp:621-625`). -/
  resolveCheck : IndexedName → String × String
  /-- Element names found by the geometric search
  (`shape.searchSubShape(subShape, &names)`, `PartFeature.cpp:676-678`). -/
  searchNames : List String
  /-- Normalization `Data::ComplexGeoData::newElementName` (outside
  `src/`). -/
  newElementName : String → String

/-- Name-comparison tail of the `checkHistory` callback
(`PartFeature.cpp:620-631`): on a name match, resolve the checking subname
against the target object and, when an old-style element results, record
the match and stop the trace. -/
def checkName (env : FromSrcEnv) (ename : MappedName) (csub : IndexedName)
    (t : Nat) (res : List MappedElement) (stepName : MappedName) :
    Nat × List MappedElement × Bool :=
  if stepName = ename then
    if (env.resolveCheck csub).2 ≠ "" then
      (t, res ++ [⟨(env.resolveCheck csub).1,
        IndexedName.ofString (env.resolveCheck csub).2⟩], true)
    else (t, res, false)
  else (t, res, false)

/-- One invocation of the `checkHistory` callback
(`PartFeature.cpp:611-633`): the first source-tag match arms the
`tagChanges` counter, each later step with a different tag bumps it, and
the trace is cut off when it passes 3; otherwise the name comparison
runs. -/
def checkStep (env : FromSrcEnv) (ename : MappedName) (csub : IndexedName)
    (tagChanges : Nat) (res : List MappedElement) (step : MappedName × Int) :
    Nat × List MappedElement × Bool :=
  if step.2.natAbs = env.ownerId then
    checkName env ename csub (if tagChanges = 0 then 1 else tagChanges) res step.1
  else if tagChanges ≠ 0 then
    if 3 < tagChanges + 1 then (tagChanges + 1, res, true)
    else checkName env ename csub (tagChanges + 1) res step.1
  else checkName env ename csub 0 res step.1

/-- Fold of `shape.traceElement` over the history steps with the
`checkHistory` callback, stopping when the callback asks to. -/
def checkLoop (env : FromSrcEnv) (ename : MappedName) (csub : IndexedName) :
    Nat → List MappedElement → List (MappedName × Int) → Nat × List MappedElement
  | t, res, [] => (t, res)
  | t, res, s :: rest =>
    let r := checkStep env ename csub t res s
    if r.2.2 then (r.1, r.2.1) else checkLoop env ename csub r.1 r.2.1 rest

/-- The prefix of the history steps the trace actually consumes before the
callback stops it (or the steps run out). -/
def checkConsumed (env : FromSrcEnv) (ename : MappedName) (csub : IndexedName) :
    Nat → List MappedElement → List (MappedName × Int) → List (MappedName × Int)
  | _, _, [] => []
  | t, res, s :: rest =>
    let r := checkStep env ename csub t res s
    s :: (if r.2.2 then [] else checkConsumed env ename csub r.1 r.2.1 rest)

/-- Count of steps whose generating tag differs from the source owner's
identity. -/
def countChangedTags (owner : Nat) (l : List (MappedName × Int)) : Nat :=
  (l.filter (fun s => s.2.natAbs ≠ owner)).length

/-- Count of differing-tag steps after the first step whose tag matches the
source owner's identity (zero when no step matches). -/
def changesAfterMatch (owner : Nat) : List (MappedName × Int) → Nat
  | [] => 0
  | s :: r =>
    if s.2.natAbs = owner then countChangedTags owner r else changesAfterMatch owner r

/-- Datum-element translation of `PartFeature.cpp:649-654`. -/
def datumTranslate (s : String) : String :=
  if s = "Plane" then "Face1"
  else if s = "Line" then "Edge1"
  else if s = "Point" then "Vertex1"
  else s

/-- Dot-separated segments of a subname path, scanned left to right. -/
def dotSegments : List Char → List Char → List String
  | cur, [] => [String.mk cur.reverse]
  | cur, c :: cs =>
    if c = '.' then String.mk cur.reverse :: dotSegments [] cs
    else dotSegments (c :: cur) cs

/-- Element-name part of a subname path, as
`Data::ComplexGeoData::findElementName` (outside `src/`): the last
dot-separated segment. -/
def findElementNamePart (s : String) : String :=
  ((dotSegments [] s.toList).getLast?).getD s

/-- New-style element name extracted from the resolved source element
(`PartFeature.cpp:640-646`); empty when there is none. -/
def fromSrcElementName (env : FromSrcEnv) : MappedName :=
  if env.objElementFirst ≠ "" then
    match isMappedElement (env.newElementName env.objElementFirst) with
    | some m => m
    | none => ""
  else ""

/-- Shape kind of the source element, from the old-style name after datum
translation (`PartFeature.cpp:656-658`). -/
def fromSrcType (env : FromSrcEnv) : ShapeKind :=
  shapeTypeOfName (findElementNamePart (datumTranslate env.objElementSecond))

/-- Tag-based shortcut of `getElementFromSource` (`PartFeature.cpp:664-673`):
attempted only for a known kind, a nonempty new-style source name, and
matching sub-shape counts; it traces the target element with the
`checkHistory` callback and yields whatever matches the callback
recorded. -/
def shortcutResult (env : FromSrcEnv) : List MappedElement :=
  let ty := fromSrcType env
  let ename := fromSrcElementName env
  if ty ≠ ShapeKind.shape ∧ ename ≠ "" ∧ env.countTarget ty = env.countSource ty then
    (checkLoop env ename (IndexedName.ofString env.objElementSecond) 0 []
      (env.traceSteps (env.getMappedName (IndexedName.ofString env.objElementSecond)))).2
  else []

/-- Result-collection loop of the geometric search
(`PartFeature.cpp:679-688`): one mapped element per found name, stopping
after the first when `single` is set. -/
def geomGo (env : FromSrcEnv) (single : Bool) :
    List String → List MappedElement → List MappedElement
  | [], acc => acc
  | n :: rest, acc =>
    let e : MappedElement :=
      ⟨env.getMappedNameAllow (IndexedName.ofString n), IndexedName.ofString n⟩
    let acc2 := acc ++ [e]
    if single then acc2 else geomGo env single rest acc2

/-- Exhaustive per-element scan (`PartFeature.cpp:697-705`): trace every
sub-element of the kind, accumulating callback matches, stopping early
when `single` is set and something was found. -/
def scanGo (env : FromSrcEnv) (ename : MappedName) (ty : ShapeKind) (single : Bool) :
    List Nat → List MappedElement → List MappedElement
  | [], res => res
  | i :: rest, res =>
    let csub : IndexedName := ⟨ty, i + 1⟩
    let r := checkLoop env ename csub 0 res (env.traceSteps (env.getMappedName csub))
    if single ∧ r.2 ≠ [] then r.2 else scanGo env ename ty single rest r.2

/-- Result of `getElementFromSource` plus instrumentation: whether the
geometric search ran and whether the exhaustive scan ran. -/
structure FromSrcResult where
  res : List MappedElement
  geomSearched : Bool
  scanned : Bool
deriving DecidableEq, Repr

/-- Translation of `Feature::getElementFromSource`
(`PartFeature.cpp:592-707`): null arguments yield an empty result; a
successful tag-based shortcut returns immediately; otherwise the geometric
search runs, and only when it finds nothing and a usable source name and
kind exist does the exhaustive per-element scan run.  Every path returns a
plain (possibly empty) list: the function has no failure outcome. -/
def getElementFromSource (env : FromSrcEnv) (single : Bool) : FromSrcResult :=
  if env.objNull || env.srcNull then ⟨[], false, false⟩
  else
    let sres := shortcutResult env
    if sres ≠ [] then ⟨sres, false, false⟩
    else if env.searchNames ≠ [] then ⟨geomGo env single env.searchNames [], true, false⟩
    else
      let ename := fromSrcElementName env
      let ty := fromSrcType env
      if ename = "" ∨ ty = ShapeKind.shape then ⟨[], true, false⟩
      else ⟨scanGo env ename ty single (List.range (env.countTarget ty)) [], true, true⟩

/-- Fixture: a call with a null target object. -/
def nullCallEnv : FromSrcEnv :=
  ⟨true, false, 0, "", "", fun _ => 0, fun _ => 0, fun _ => "", fun _ => "",
    fun _ => [], fun _ => ("", ""), [], fun s => s⟩

/-- Fixture: a call whose source element has no new-style name (so the
shortcut is skipped) and whose geometric search finds "Face2". -/
def geomDemoEnv : FromSrcEnv :=
  ⟨false, false, 0, "", "", fun _ => 0, fun _ => 0, fun _ => "", fun _ => "mf",
    fun _ => [], fun _ => ("", ""), ["Face2"], fun s => s⟩

/-- Fixture: a call where the tag-based shortcut succeeds: source element
";M1" / "Face1" with equal face counts, whose first trace step carries the
source owner's tag 7 and the matching name. -/
def shortcutDemoEnv : FromSrcEnv :=
  ⟨false, false, 7, ";M1", "Face1", fun _ => 1, fun _ => 1, fun _ => "M1",
    fun _ => "", fun m => if m = "M1" then [("M1", 7)] else [],
    fun _ => ("nm", "Face1"), ["X"], fun s => s⟩

/-!   Related-elements query (claim C10): `Feature::getRelatedElements`,
`PartFeature.cpp:709-776`. -/

/-- External collaborators of one `getRelatedElements` call.
`elementSource` abstracts the static `getElementSource` walk (modelled in
full above) as the chain it produces for a name and type filter, since this
claim concerns the caching behaviour around it. -/
structure RelEnv where
  /-- Durable/index pair for the query name (`shape.getElementName(name)`);
  an empty durable name models the no-mapped-element case. -/
  shapeGetElementName : String → MappedName × IndexedName
  /-- Element type code of a durable name (`shape.elementType`). -/
  elementTypeOf : MappedName → Nat
  /-- Shape kind of a type code (`TopoShape::shapeType(element_type,
  true)`), `shape` when invalid. -/
  shapeTypeOfChar : Nat → ShapeKind
  /-- Sub-shape count of the current shape per kind. -/
  countSubShapes : ShapeKind → Nat
  /-- Durable name of an index name (`shape.getMappedName(idx)`). -/
  getMappedName : IndexedName → MappedName
  /-- Index name of a durable name (`shape.getIndexedName`). -/
  getIndexedName : MappedName → Option IndexedName
  /-- Source chain of a durable name (`getElementSource(owner, shape,
  name, type)`). -/
  elementSource : MappedName → Nat → List (Int × MappedName)

/-- Modelled from the spec: the per-shape related-elements cache behind
`TopoShape::getRelatedElementsCached` / `cacheRelatedElements` (both
outside `src/`), keyed by the (durable name, sameType) pair; insertion at
the front gives later entries priority, modelling overwrite. -/
abbrev RelCache := List ((MappedName × Bool) × List MappedElement)

/-- First source-chain entry whose name still resolves in the current
shape (`PartFeature.cpp:734-741`). -/
def firstResolvable (env : RelEnv) : List (Int × MappedName) → Option MappedElement
  | [] => none
  | s :: rest =>
    match env.getIndexedName s.2 with
    | some idx => some ⟨s.2, idx⟩
    | none => firstResolvable env rest

/-- Backward suffix comparison of two source chains
(`PartFeature.cpp:754-768`): walk both chains from the back while the
names agree, landing on the position after the first disagreement; the
candidate is kept when the landing position is inside the query's chain. -/
def suffixMatchIdx (source : List (Int × MappedName)) :
    List (Int × MappedName) → Int → Int
  | [], idx => idx
  | s :: rest, idx =>
    if idx < 0 then idx
    else if s.2 ≠ (((source[idx.toNat]?).map Prod.snd).getD "") then idx + 1
    else suffixMatchIdx source rest (idx - 1)

/-- Insertion into the ordered `retMap` of `PartFeature.cpp:743,770`
(`std::map<int, QVector<MappedElement>>`). -/
def mapInsertSorted (k : Int) (v : MappedElement) :
    List (Int × List MappedElement) → List (Int × List MappedElement)
  | [] => [(k, [v])]
  | (k2, vs) :: rest =>
    if k = k2 then (k2, vs ++ [v]) :: rest
    else if k < k2 then (k, [v]) :: (k2, vs) :: rest
    else (k2, vs) :: mapInsertSorted k v rest

/-- Full scan of `getRelatedElements` (`PartFeature.cpp:747-771`): group
every named sub-element of the kind by the divergence position of its
source chain against the query's chain. -/
def relScan (env : RelEnv) (source : List (Int × MappedName)) (tyChar : Nat)
    (ty : ShapeKind) : List Nat → List (Int × List MappedElement) →
    List (Int × List MappedElement)
  | [], m => m
  | i :: rest, m =>
    let ridx : IndexedName := ⟨ty, i⟩
    let rname := env.getMappedName ridx
    if rname = "" then relScan env source tyChar ty rest m
    else
      let src := env.elementSource rname tyChar
      let idx := suffixMatchIdx source src.reverse ((source.length : Int) - 1)
      if idx < (source.length : Int) then
        relScan env source tyChar ty rest (mapInsertSorted idx ⟨rname, ridx⟩ m)
      else relScan env source tyChar ty rest m

/-- Translation of `Feature::getRelatedElements`
(`PartFeature.cpp:709-776`), with the cache passed explicitly: an unmapped
name or an invalid element kind returns empty without touching the cache;
`withCache` only gates the cache read; both completing paths (direct
source hit and full scan, even when the scan found nothing) store their
result under the (durable name, sameType) key before returning. -/
def getRelatedElements (env : RelEnv) (cache : RelCache) (name : String)
    (sameType withCache : Bool) : List MappedElement × RelCache :=
  let mapped := env.shapeGetElementName name
  if mapped.1 = "" then ([], cache)
  else
    match (if withCache then assocFind cache (mapped.1, sameType) else none) with
    | some r => (r, cache)
    | none =>
      let etype := env.elementTypeOf mapped.1
      let ty := env.shapeTypeOfChar etype
      if ty = ShapeKind.shape then ([], cache)
      else
        let tyChar := if sameType then etype else 0
        let source := env.elementSource mapped.1 tyChar
        match firstResolvable env source with
        | some e => ([e], ((mapped.1, sameType), [e]) :: cache)
        | none =>
          let m := relScan env source tyChar ty
            (List.range' 1 (env.countSubShapes ty)) []
          let ret := match m with
            | [] => []
            | g :: _ => g.2
          (ret, ((mapped.1, sameType), ret) :: cache)

/-- Fixture: a shape with one mapped edge "Edge1" whose durable name is
"m", an empty source chain, and no sub-shapes to scan. -/
def relDemoEnv : RelEnv :=
  ⟨fun n => if n = "Edge1" then ("m", ⟨.edge, 1⟩) else ("", ⟨.shape, 0⟩),
   fun _ => 1, fun c => if c = 1 then .edge else .shape, fun _ => 0,
   fun _ => "", fun _ => none, fun _ _ => []⟩

/-!   `Feature::getElementName` dispatch (claim C9), `PartFeature.cpp:160-174`. -/

/-- Element name query type, as `App::GeoFeature::ElementNameType`. -/
inductive ElementNameType where
  | normal | importName | exportName
deriving DecidableEq, Repr

/-- Environment of `Feature::getElementName`: the base-class resolver, the
geometry-property check, and the export-name computation applied to the
shape property's shape, all external to the function body. -/
structure DispatchEnv where
  /-- Result of `App::GeoFeature::getElementName(name, type)`. -/
  base : String → ElementNameType → String × String
  /-- Whether `getPropertyOfGeometry()` dynamic-casts to `PropertyPartShape`
  (`PartFeature.cpp:169`): false models a null `prop`. -/
  hasShapeProp : Bool
  /-- Result of `getExportElementName(prop->getShape(), name)`. -/
  exportName : String → String × String

/-- Translation of `Feature::getElementName` (`PartFeature.cpp:160-174`):
non-export queries and features without a shape property defer to the base
class; only export queries on a shape-bearing feature reach
`getExportElementName`. -/
def featureGetElementName (env : DispatchEnv) (name : String) (ty : ElementNameType) :
    String × String :=
  if ty ≠ ElementNameType.exportName then env.base name ty
  else if !env.hasShapeProp then env.base name ty
  else env.exportName name

end PartFeature

namespace PartFeature

/-!   Theorems. -/

/-- Helper for claim C3: whenever the collection loop of
`getExportElementName` breaks early, it has gathered at least
`MinLowerTopoNames` names (the singleton count never exceeds the number of
collected names). -/
theorem collectLower_broke_count :
    ∀ (entries : List LowerEntry) (count : Nat) (idc : List (Nat × List Nat))
      (nms : List MappedName), count ≤ nms.length →
      (collectLower entries count idc nms).2.2 = true →
      MinLowerTopoNames ≤ (collectLower entries count idc nms).2.1.length := by
  intro entries
  induction entries with
  | nil =>
    intro count idc nms _ hb
    simp [collectLower] at hb
  | cons e rest ih =>
    intro count idc nms h hb
    cases hn : e.name with
    | none =>
      simp only [collectLower, hn] at hb ⊢
      exact ih count idc nms h hb
    | some n =>
      simp only [collectLower, hn] at hb ⊢
      by_cases h1 : e.ancestors.length = 1
      · rw [if_pos h1] at hb ⊢
        by_cases h3 : MinLowerTopoNames ≤ count + 1
        · rw [if_pos h3] at hb ⊢
          simpa using Nat.le_trans h3 (by simpa using Nat.succ_le_succ h)
        · rw [if_neg h3] at hb ⊢
          exact ih (count + 1) _ _ (by simpa using Nat.succ_le_succ h) hb
      · rw [if_neg h1] at hb ⊢
        exact ih count _ _ (Nat.le_trans h (by simp)) hb

/-- Helper: the encoded names of a synthesized combo are the collected names
truncated to `MaxLowerTopoNames`. -/
theorem synthCombo_names_eq (entries : List LowerEntry) (ordinal : Nat) :
    (synthCombo entries ordinal).names =
      (comboCollected entries).2.1.take
        (min (comboCollected entries).2.1.length MaxLowerTopoNames) := by
  simp only [synthCombo]
  split <;> rfl

/-- Claim C3 counterexample: a wire with one named edge still gets a combo
name, encoded from a single lower-element name — fewer than
`MinLowerTopoNames` (3), contradicting the claimed lower bound. -/
theorem comboMinCount_counterexample :
    (synthCombo wireOneEdge 1).made = true ∧
    (synthCombo wireOneEdge 1).names.length = 1 := by
  decide

/-- Claim C3 (as amended): the combo name encodes at most
`MaxLowerTopoNames` (10) lower-element names, and at least
`MinLowerTopoNames` (3) whenever the collection loop stopped early (it
stops early only after gathering three names whose ancestor set is a
singleton); when the element has fewer qualifying lower elements the combo
is synthesized from however many exist, and the chosen run need not
identify the element uniquely — residual ambiguity is instead addressed by
the numeric disambiguation text. -/
theorem synthCombo_nameCount (entries : List LowerEntry) (ordinal : Nat) :
    (synthCombo entries ordinal).names.length ≤ MaxLowerTopoNames ∧
    ((comboCollected entries).2.2 = true →
      MinLowerTopoNames ≤ (synthCombo entries ordinal).names.length) := by
  have hn := synthCombo_names_eq entries ordinal
  constructor
  · rw [hn, List.length_take]
    omega
  · intro hb
    have h3 : MinLowerTopoNames ≤ (collectLower entries 0 [] []).2.1.length :=
      collectLower_broke_count entries 0 [] [] (by simp) hb
    rw [hn, List.length_take]
    have e3 : MinLowerTopoNames = 3 := rfl
    have e10 : MaxLowerTopoNames = 10 := rfl
    have hc : comboCollected entries = collectLower entries 0 [] [] := rfl
    rw [e3, e10, hc]
    rw [e3] at h3
    omega

/-- Witness for C3's amended statement: on three lower elements that each
identify the higher element alone, the loop breaks early and the combo
carries exactly the bounds' worth of names. -/
theorem synthCombo_nameCount_witness :
    (synthCombo threeSingletons 1).names.length ≤ MaxLowerTopoNames ∧
    MinLowerTopoNames ≤ (synthCombo threeSingletons 1).names.length := by
  exact ⟨(synthCombo_nameCount threeSingletons 1).1,
    (synthCombo_nameCount threeSingletons 1).2 (by decide)⟩

/-- Claim C4 counterexample: two distinct higher elements (ordinals 1 and 2
of the same shape) share the same four named lower faces, which do not
identify either uniquely (the combined ancestor set keeps both), yet the
synthesis produces byte-identical results with an empty operation text for
both — no disambiguation suffix is appended, because the suffix is only
computed when at least `MaxLowerTopoNames` lower names were collected. -/
theorem comboSuffix_counterexample :
    synthCombo sharedFourFaces 1 = synthCombo sharedFourFaces 2 ∧
    1 < (specCombinedAncestors sharedFourFaces).length ∧
    (synthCombo sharedFourFaces 1).op = "" := by
  decide

/-- Claim C4 (as amended): the numeric disambiguation text is appended only
on the branch entered with at least `MaxLowerTopoNames` collected names;
there, when the surviving ancestor set still holds more than one ordinal,
each element present in it receives the reserved index marker followed by
its own position in the set, the embedded positions of two distinct
elements differ, and the position embedded for an element indexes that very
element in the surviving set. -/
theorem comboSuffix_distinct (entries : List LowerEntry) (i j : Nat)
    (hlen : 1 < (comboSurvivors entries).length)
    (hi : i ∈ comboSurvivors entries) (hj : j ∈ comboSurvivors entries)
    (hij : i ≠ j) :
    comboOp entries i =
      indexMarkerText ++ Nat.repr ((comboSurvivors entries).indexOf i) ∧
    (comboSurvivors entries).indexOf i ≠ (comboSurvivors entries).indexOf j ∧
    (comboSurvivors entries)[(comboSurvivors entries).indexOf i]? = some i := by
  refine ⟨?_, ?_, List.getElem?_indexOf hi⟩
  · have hlt : (comboSurvivors entries).indexOf i < (comboSurvivors entries).length :=
      List.indexOf_lt_length.2 hi
    unfold comboOp
    rw [if_pos hlen, if_neg (Nat.ne_of_lt hlt)]
  · intro h
    exact hij ((List.indexOf_inj hi hj).1 h)

/-- Witness for C4's amended statement on the ten-shared-faces fixture: the
two ordinals receive the marker with positions 0 and 1, concretely the
distinct suffix texts ";:I0" and ";:I1". -/
theorem comboSuffix_distinct_witness :
    comboOp sharedTenFaces 1 =
      indexMarkerText ++ Nat.repr ((comboSurvivors sharedTenFaces).indexOf 1) ∧
    (comboSurvivors sharedTenFaces).indexOf 1 ≠ (comboSurvivors sharedTenFaces).indexOf 2 ∧
    comboOp sharedTenFaces 1 = ";:I0" ∧ comboOp sharedTenFaces 2 = ";:I1" := by
  have h := comboSuffix_distinct sharedTenFaces 1 2 (by decide) (by decide)
    (by decide) (by decide)
  exact ⟨h.1, h.2.1, by decide, by decide⟩

/-- Helper for claim C6: when the shortcut condition fails, its result is
empty; so a nonempty shortcut result certifies the condition, in
particular the equal sub-shape counts. -/
theorem shortcutResult_counts (env : FromSrcEnv) (h : shortcutResult env ≠ []) :
    env.countTarget (fromSrcType env) = env.countSource (fromSrcType env) := by
  by_cases hc : fromSrcType env ≠ ShapeKind.shape ∧ fromSrcElementName env ≠ "" ∧
      env.countTarget (fromSrcType env) = env.countSource (fromSrcType env)
  · exact hc.2.2
  · exfalso
    apply h
    unfold shortcutResult
    rw [if_neg hc]

/-- Claim C6: the tag-based shortcut of `getElementFromSource` is attempted
only under equal sub-shape counts for the relevant kind (a nonempty
shortcut result implies the counts agree), and when it finds a match the
function returns that match immediately: neither the geometric search nor
the exhaustive per-element scan runs. -/
theorem getElementFromSource_shortcutFirst (env : FromSrcEnv) (single : Bool) :
    (shortcutResult env ≠ [] →
      env.countTarget (fromSrcType env) = env.countSource (fromSrcType env)) ∧
    (env.objNull = false → env.srcNull = false → shortcutResult env ≠ [] →
      getElementFromSource env single = ⟨shortcutResult env, false, false⟩) := by
  refine ⟨shortcutResult_counts env, fun ho hs hne => ?_⟩
  simp [getElementFromSource, ho, hs, hne]

/-- Witness for C6: on the shortcut fixture the whole function returns the
shortcut's single match with both later phases unused, and the counts
agree. -/
theorem getElementFromSource_shortcutFirst_witness :
    getElementFromSource shortcutDemoEnv false =
      ⟨[⟨"nm", ⟨.face, 1⟩⟩], false, false⟩ ∧
    shortcutDemoEnv.countTarget (fromSrcType shortcutDemoEnv) =
      shortcutDemoEnv.countSource (fromSrcType shortcutDemoEnv) := by
  have h := (getElementFromSource_shortcutFirst shortcutDemoEnv false).2 rfl rfl
    (by decide)
  refine ⟨?_, (getElementFromSource_shortcutFirst shortcutDemoEnv false).1 (by decide)⟩
  rw [h]
  decide

/-- Helper for claim C7: the name-comparison tail passes the counter value
through unchanged. -/
theorem checkName_fst (env : FromSrcEnv) (ename : MappedName) (csub : IndexedName)
    (t : Nat) (res : List MappedElement) (n : MappedName) :
    (checkName env ename csub t res n).1 = t := by
  unfold checkName
  split
  · split <;> rfl
  · rfl

/-- Helper: count of differing-tag steps over a cons cell. -/
theorem countChangedTags_cons (owner : Nat) (s : MappedName × Int)
    (l : List (MappedName × Int)) :
    countChangedTags owner (s :: l) =
      (if s.2.natAbs = owner then 0 else 1) + countChangedTags owner l := by
  by_cases hs : s.2.natAbs = owner
  · simp [countChangedTags, List.filter_cons, hs]
  · simp [countChangedTags, List.filter_cons, hs]
    omega

/-- Helper: change count after the first match, over a matching head. -/
theorem changesAfterMatch_cons_match (owner : Nat) (s : MappedName × Int)
    (l : List (MappedName × Int)) (h : s.2.natAbs = owner) :
    changesAfterMatch owner (s :: l) = countChangedTags owner l := by
  simp [changesAfterMatch, h]

/-- Helper: change count after the first match, over a differing head. -/
theorem changesAfterMatch_cons_nomatch (owner : Nat) (s : MappedName × Int)
    (l : List (MappedName × Int)) (h : ¬ s.2.natAbs = owner) :
    changesAfterMatch owner (s :: l) = changesAfterMatch owner l := by
  simp [changesAfterMatch, h]

/-- Helper: the consumed prefix over a cons cell, given the step's
outcome. -/
theorem checkConsumed_cons (env : FromSrcEnv) (ename : MappedName)
    (csub : IndexedName) (t : Nat) (res : List MappedElement)
    (s : MappedName × Int) (rest : List (MappedName × Int))
    (r : Nat × List MappedElement × Bool) (hr : checkStep env ename csub t res s = r) :
    checkConsumed env ename csub t res (s :: rest) =
      s :: (if r.2.2 = true then [] else checkConsumed env ename csub r.1 r.2.1 rest) := by
  simp only [checkConsumed, hr]

/-- Helper for claim C7: invariant of the `checkHistory` counter along the
consumed steps: starting un-armed the consumed steps carry at most 3 tag
changes past the first owner-tag match, and starting armed at `t ≤ 3` at
most `4 - t` differing-tag steps are consumed. -/
theorem checkConsumed_bound (env : FromSrcEnv) (ename : MappedName)
    (csub : IndexedName) :
    ∀ (steps : List (MappedName × Int)) (t : Nat) (res : List MappedElement),
      t ≤ 3 →
      (t = 0 → changesAfterMatch env.ownerId
          (checkConsumed env ename csub t res steps) ≤ 3) ∧
      (1 ≤ t → countChangedTags env.ownerId
          (checkConsumed env ename csub t res steps) ≤ 4 - t) := by
  intro steps
  induction steps with
  | nil =>
    intro t res _
    constructor <;> intro _ <;>
      simp [checkConsumed, changesAfterMatch, countChangedTags]
  | cons s rest ih =>
    intro t res ht
    by_cases hm : s.2.natAbs = env.ownerId
    · have hstep : checkStep env ename csub t res s =
          checkName env ename csub (if t = 0 then 1 else t) res s.1 := by
        unfold checkStep
        rw [if_pos hm]
      set r := checkName env ename csub (if t = 0 then 1 else t) res s.1 with hrdef
      rw [checkConsumed_cons env ename csub t res s rest r hstep]
      have hr1 : r.1 = if t = 0 then 1 else t := by
        rw [hrdef, checkName_fst]
      by_cases hstop : r.2.2 = true
      · rw [if_pos hstop]
        constructor
        · intro _
          rw [changesAfterMatch_cons_match _ _ _ hm]
          simp [countChangedTags]
        · intro _
          rw [countChangedTags_cons, if_pos hm]
          simp [countChangedTags]
      · rw [if_neg hstop]
        constructor
        · intro ht0
          rw [changesAfterMatch_cons_match _ _ _ hm]
          have harm : r.1 = 1 := by rw [hr1, if_pos ht0]
          rw [harm]
          exact (ih 1 r.2.1 (by omega)).2 (by omega)
        · intro ht1
          rw [countChangedTags_cons, if_pos hm]
          have harm : r.1 = t := by rw [hr1, if_neg (by omega)]
          rw [harm]
          have := (ih t r.2.1 ht).2 ht1
          omega
    · by_cases ht0 : t = 0
      · subst ht0
        have hstep : checkStep env ename csub 0 res s =
            checkName env ename csub 0 res s.1 := by
          unfold checkStep
          rw [if_neg hm, if_neg (by omega)]
        set r := checkName env ename csub 0 res s.1 with hrdef
        rw [checkConsumed_cons env ename csub 0 res s rest r hstep]
        have hr1 : r.1 = 0 := by rw [hrdef, checkName_fst]
        constructor
        · intro _
          rw [changesAfterMatch_cons_nomatch _ _ _ hm]
          by_cases hstop : r.2.2 = true
          · rw [if_pos hstop]
            simp [changesAfterMatch]
          · rw [if_neg hstop, hr1]
            exact (ih 0 r.2.1 (by omega)).1 rfl
        · intro h1
          omega
      · have ht1 : 1 ≤ t := by omega
        by_cases h3 : t = 3
        · subst h3
          have hstep : checkStep env ename csub 3 res s = (4, res, true) := by
            unfold checkStep
            rw [if_neg hm, if_pos (by omega), if_pos (by omega)]
          rw [checkConsumed_cons env ename csub 3 res s rest (4, res, true) hstep]
          constructor
          · intro h0
            omega
          · intro _
            rw [if_pos rfl, countChangedTags_cons, if_neg hm]
            simp [countChangedTags]
        · have hlt : t < 3 := by omega
          have hstep : checkStep env ename csub t res s =
              checkName env ename csub (t + 1) res s.1 := by
            unfold checkStep
            rw [if_neg hm, if_pos (by omega), if_neg (by omega)]
          set r := checkName env ename csub (t + 1) res s.1 with hrdef
          rw [checkConsumed_cons env ename csub t res s rest r hstep]
          have hr1 : r.1 = t + 1 := by rw [hrdef, checkName_fst]
          constructor
          · intro h0
            omega
          · intro _
            rw [countChangedTags_cons, if_neg hm]
            by_cases hstop : r.2.2 = true
            · rw [if_pos hstop]
              simp [countChangedTags]
              omega
            · rw [if_neg hstop, hr1]
              have := (ih (t + 1) r.2.1 (by omega)).2 (by omega)
              omega

/-- Claim C7: along any element-history trace, once the generator tag first
matches the source owner's identity, the `checkHistory` callback consumes
at most 3 further differing-tag steps before the trace is cut off (both
trace call sites start the counter at 0). -/
theorem traceCutoff_bound (env : FromSrcEnv) (ename : MappedName)
    (csub : IndexedName) (steps : List (MappedName × Int))
    (res0 : List MappedElement) :
    changesAfterMatch env.ownerId (checkConsumed env ename csub 0 res0 steps) ≤ 3 :=
  (checkConsumed_bound env ename csub steps 0 res0 (by omega)).1 rfl

/-- Helper for claim C8: without the `single` flag the geometric-search
collection returns one element per found name. -/
theorem geomGo_all (env : FromSrcEnv) :
    ∀ (l : List String) (acc : List MappedElement),
      geomGo env false l acc = acc ++ l.map (fun n =>
        ⟨env.getMappedNameAllow (IndexedName.ofString n), IndexedName.ofString n⟩) := by
  intro l
  induction l with
  | nil => intro acc; simp [geomGo]
  | cons n rest ih =>
    intro acc
    simp only [geomGo, if_neg (by simp : ¬ False), List.map_cons]
    rw [ih]
    simp

/-- Helper for claim C8: with the `single` flag the geometric-search
collection stops after the first found name. -/
theorem geomGo_single (env : FromSrcEnv) (n : String) (rest : List String)
    (acc : List MappedElement) :
    geomGo env true (n :: rest) acc = acc ++
      [⟨env.getMappedNameAllow (IndexedName.ofString n), IndexedName.ofString n⟩] := rfl

/-- Claim C8: `getElementFromSource` signals every failed lookup with an
empty list rather than an exception (the translation is a total function):
null target or source objects return empty immediately; and with the
shortcut unfruitful, a nonempty geometric search returns one element per
match — all of them, or just the first when `single` is set — while an
unresolvable source element (no new-style name, or no usable kind) with an
empty search returns empty. -/
theorem getElementFromSource_total (env : FromSrcEnv) (single : Bool) :
    (env.objNull = true ∨ env.srcNull = true →
      getElementFromSource env single = ⟨[], false, false⟩) ∧
    (env.objNull = false → env.srcNull = false → shortcutResult env = [] →
      env.searchNames ≠ [] →
      (single = false → (getElementFromSource env single).res =
        env.searchNames.map (fun n =>
          ⟨env.getMappedNameAllow (IndexedName.ofString n), IndexedName.ofString n⟩)) ∧
      (∀ n rest, env.searchNames = n :: rest → single = true →
        (getElementFromSource env single).res =
          [⟨env.getMappedNameAllow (IndexedName.ofString n), IndexedName.ofString n⟩])) ∧
    (env.objNull = false → env.srcNull = false → shortcutResult env = [] →
      env.searchNames = [] →
      (fromSrcElementName env = "" ∨ fromSrcType env = ShapeKind.shape) →
      getElementFromSource env single = ⟨[], true, false⟩) := by
  refine ⟨fun h => ?_, fun ho hs hsc hne => ?_, fun ho hs hsc hse hb => ?_⟩
  · rcases h with h | h <;> simp [getElementFromSource, h]
  · have hres : getElementFromSource env single =
        ⟨geomGo env single env.searchNames [], true, false⟩ := by
      simp [getElementFromSource, ho, hs, hsc, hne]
    constructor
    · intro h1
      subst h1
      rw [hres]
      rw [show (FromSrcResult.mk (geomGo env false env.searchNames []) true false).res =
        geomGo env false env.searchNames [] from rfl]
      rw [geomGo_all]
      simp
    · intro n rest hsn h1
      subst h1
      rw [hres]
      rw [show (FromSrcResult.mk (geomGo env true env.searchNames []) true false).res =
        geomGo env true env.searchNames [] from rfl]
      rw [hsn, geomGo_single]
      simp
  · rcases hb with hb | hb <;>
      simp [getElementFromSource, ho, hs, hsc, hse, hb]

/-- Witness for C8: a null target returns empty, and the geometric-search
fixture returns its one match. -/
theorem getElementFromSource_total_witness :
    getElementFromSource nullCallEnv true = ⟨[], false, false⟩ ∧
    (getElementFromSource geomDemoEnv false).res = [⟨"mf", ⟨.face, 2⟩⟩] := by
  constructor
  · exact (getElementFromSource_total nullCallEnv true).1 (Or.inl rfl)
  · have h := ((getElementFromSource_total geomDemoEnv false).2.1 rfl rfl
      (by decide) (by decide)).1 rfl
    rw [h]
    decide

/-- Helper for claim C5: a lower name that fails to resolve empties the
candidate fold no matter where in the list it sits. -/
theorem decodeAncestors_fail (env : DecodeEnv) (kind : ShapeKind) :
    ∀ (names : List MappedName) (anc : List Nat),
      (∃ n ∈ names, lowerResolves env n = false) →
      decodeAncestors env kind names anc = [] := by
  intro names
  induction names with
  | nil =>
    rintro anc ⟨n, hn, _⟩
    cases hn
  | cons m rest ih =>
    rintro anc ⟨n, hn, hf⟩
    cases hgi : env.getIndexedName m with
    | none => simp [decodeAncestors, hgi]
    | some i =>
      cases hss : env.getSubShape i with
      | none => simp [decodeAncestors, hgi, hss]
      | some ss =>
        have hrest : n ∈ rest := by
          rcases List.mem_cons.1 hn with rfl | h
          · exfalso
            simp only [lowerResolves, hgi, hss, Option.isSome] at hf
            exact Bool.noConfusion hf
          · exact h
        simp only [decodeAncestors, hgi, hss]
        split
        · exact ih _ ⟨n, hrest, hf⟩
        · split
          · next he => exact List.isEmpty_iff.1 he
          · exact ih _ ⟨n, hrest, hf⟩

/-- Claim C5 counterexample: decoding two lower names whose ancestor sets
are empty and {7} returns Wire 7, although the intersection of the ancestor
sets — which the claim requires to be the candidate set — is empty (the
code's fold skips leading empty ancestor sets instead of intersecting
them). -/
theorem decodeCombo_intersection_counterexample :
    decodeCombo decodeDemoEnv .wire ["a", "b"] "" = some 7 ∧
    specDecodeIntersection decodeDemoEnv .wire ["a", "b"] none = some [] := by
  decide

/-- Claim C5 (as amended): the decode branch folds the resolved ancestor
sets left to right — skipping any leading lower elements whose ancestor set
is empty, so the candidate set is not always the full intersection — and
returns a re-identified index exactly when one candidate remains after the
embedded ordinal (when present and in range) selects among several
survivors; any encoded lower name that fails to resolve (no index name or a
null sub-shape) forces an empty result. -/
theorem decodeCombo_characterization (env : DecodeEnv) (kind : ShapeKind)
    (names : List MappedName) (tail : String) :
    (∀ a, decodeCombo env kind names tail = some a ↔
      applyComboOrdinal tail (decodeAncestors env kind names []) = [a]) ∧
    ((∃ n ∈ names, lowerResolves env n = false) →
      decodeCombo env kind names tail = none) ∧
    (∀ k, 1 < (decodeAncestors env kind names []).length →
      comboOrdinalOf tail = some k → k < (decodeAncestors env kind names []).length →
      decodeCombo env kind names tail =
        some ((decodeAncestors env kind names []).getD k 0)) := by
  refine ⟨fun a => ?_, fun hf => ?_, fun k hlen hk hkr => ?_⟩
  · unfold decodeCombo
    rcases applyComboOrdinal tail (decodeAncestors env kind names []) with _ | ⟨x, _ | ⟨y, r⟩⟩
    · simp
    · simp
    · simp
  · unfold decodeCombo
    rw [decodeAncestors_fail env kind names [] hf]
    rfl
  · simp only [decodeCombo, applyComboOrdinal, hk, if_pos hlen, if_pos hkr]

/-- Witness for C5's amended statement: an unresolvable encoded name yields
no index, while a resolvable singleton candidate yields its wire. -/
theorem decodeCombo_characterization_witness :
    decodeCombo decodeDemoEnv .wire ["c"] "" = none ∧
    decodeCombo decodeDemoEnv .wire ["b"] "" = some 7 := by
  constructor
  · exact (decodeCombo_characterization decodeDemoEnv .wire ["c"] "").2.1
      ⟨"c", by decide, by decide⟩
  · exact ((decodeCombo_characterization decodeDemoEnv .wire ["b"] "").1 7).2
      (by decide)

/-- Claim C10: `getRelatedElements` writes its computed result (also an
empty full-scan result) into the related-elements cache under the
(durable name, sameType) key on every completed query, regardless of
`withCache`; `withCache` only gates whether a previously cached result is
read and returned (with it off the result does not depend on the cache at
all); and a query whose name has no mapped element, or whose element kind
is invalid, returns empty without touching the cache. -/
theorem getRelatedElements_cache (env : RelEnv) (cache : RelCache) (name : String)
    (sameType withCache : Bool) :
    ((env.shapeGetElementName name).1 = "" →
      getRelatedElements env cache name sameType withCache = ([], cache)) ∧
    ((env.shapeGetElementName name).1 ≠ "" → withCache = true →
      ∀ r, assocFind cache ((env.shapeGetElementName name).1, sameType) = some r →
        getRelatedElements env cache name sameType withCache = (r, cache)) ∧
    ((env.shapeGetElementName name).1 ≠ "" →
      (withCache = false ∨
        assocFind cache ((env.shapeGetElementName name).1, sameType) = none) →
      (env.shapeTypeOfChar (env.elementTypeOf (env.shapeGetElementName name).1) =
          ShapeKind.shape →
        getRelatedElements env cache name sameType withCache = ([], cache)) ∧
      (env.shapeTypeOfChar (env.elementTypeOf (env.shapeGetElementName name).1) ≠
          ShapeKind.shape →
        assocFind (getRelatedElements env cache name sameType withCache).2
            ((env.shapeGetElementName name).1, sameType) =
          some (getRelatedElements env cache name sameType withCache).1)) ∧
    ((getRelatedElements env cache name sameType false).1 =
      (getRelatedElements env [] name sameType false).1) := by
  refine ⟨fun h => ?_, fun h hw r hr => ?_, fun h hor => ?_, ?_⟩
  · simp [getRelatedElements, h]
  · simp [getRelatedElements, h, hw, hr]
  · have hnone : (if withCache then
        assocFind cache ((env.shapeGetElementName name).1, sameType) else none) = none := by
      rcases hor with h1 | h1
      · rw [h1]
        rfl
      · cases withCache <;> simp [h1]
    constructor
    · intro hty
      simp [getRelatedElements, h, hnone, hty]
    · intro hty
      simp only [getRelatedElements, if_neg h, hnone]
      rw [if_neg hty]
      cases hf : firstResolvable env (env.elementSource (env.shapeGetElementName name).1
          (if sameType then env.elementTypeOf (env.shapeGetElementName name).1 else 0)) <;>
        simp [assocFind]
  · by_cases h : (env.shapeGetElementName name).1 = ""
    · simp [getRelatedElements, h]
    · simp only [getRelatedElements, if_neg h]
      have hnone : ∀ c : RelCache, (if false then
          assocFind c ((env.shapeGetElementName name).1, sameType) else none) = none :=
        fun _ => rfl
      rw [hnone, hnone]
      by_cases hty : env.shapeTypeOfChar
          (env.elementTypeOf (env.shapeGetElementName name).1) = ShapeKind.shape
      · rw [if_pos hty, if_pos hty]
      · rw [if_neg hty, if_neg hty]
        cases hf : firstResolvable env (env.elementSource (env.shapeGetElementName name).1
            (if sameType then env.elementTypeOf (env.shapeGetElementName name).1 else 0)) <;>
          simp

/-- Witness for C10: on the demo shape an uncached query completes through
the full scan with an empty result, which is written to the cache under the
("m", false) key; a name with no mapped element leaves the cache empty. -/
theorem getRelatedElements_cache_witness :
    assocFind (getRelatedElements relDemoEnv [] "Edge1" false false).2 ("m", false) =
      some (getRelatedElements relDemoEnv [] "Edge1" false false).1 ∧
    getRelatedElements relDemoEnv [] "nope" false true = ([], []) := by
  constructor
  · exact ((getRelatedElements_cache relDemoEnv [] "Edge1" false false).2.2.1
      (by decide) (Or.inl rfl)).2 (by decide)
  · exact (getRelatedElements_cache relDemoEnv [] "nope" false true).1 (by decide)

/-- Claim C9: for every query type other than Export,
`Feature::getElementName` returns exactly the base
`GeoFeature::getElementName` result, and likewise when the feature's
geometry property is not a shape property; the export-name synthesis runs
only for Export queries on a shape-bearing feature. -/
theorem getElementName_dispatch (env : DispatchEnv) (name : String) (ty : ElementNameType) :
    (ty ≠ ElementNameType.exportName →
      featureGetElementName env name ty = env.base name ty) ∧
    (env.hasShapeProp = false →
      featureGetElementName env name ty = env.base name ty) ∧
    (ty = ElementNameType.exportName → env.hasShapeProp = true →
      featureGetElementName env name ty = env.exportName name) := by
  refine ⟨fun h => ?_, fun h => ?_, fun h h2 => ?_⟩
  · simp [featureGetElementName, h]
  · unfold featureGetElementName
    by_cases hty : ty = ElementNameType.exportName <;> simp [hty, h]
  · simp [featureGetElementName, h, h2]

/-- Witness for C9 at a concrete environment: the non-export and
no-shape-property queries both defer to the base resolver. -/
theorem getElementName_dispatch_witness :
    featureGetElementName ⟨fun n _ => (n, n), false, fun n => ("X" ++ n, n)⟩ "Edge1"
      ElementNameType.normal = ("Edge1", "Edge1") ∧
    featureGetElementName ⟨fun n _ => (n, n), false, fun n => ("X" ++ n, n)⟩ "Edge1"
      ElementNameType.exportName = ("Edge1", "Edge1") := by
  constructor
  · exact (getElementName_dispatch ⟨fun n _ => (n, n), false, fun n => ("X" ++ n, n)⟩
      "Edge1" ElementNameType.normal).1 (by decide)
  · exact ((getElementName_dispatch ⟨fun n _ => (n, n), false, fun n => ("X" ++ n, n)⟩
      "Edge1" ElementNameType.exportName).2.1 rfl)

/-- Helper for claim C1: on the cyclic fixture, the `getElementHistory` loop
re-enters the same control state every iteration, so no amount of fuel
completes it. -/
theorem historyLoop_cyclic_stuck (fuel : Nat) :
    ∀ ret : List HistoryItem,
      historyLoop cyclicHistEnv true 0 fuel ⟨1, some 1, "e1", "", ret⟩ = none := by
  induction fuel with
  | zero => intro ret; rfl
  | succ n ih =>
    intro ret
    have hstep : historyLoop cyclicHistEnv true 0 (n + 1) ⟨1, some 1, "e1", "", ret⟩ =
        historyLoop cyclicHistEnv true 0 n
          ⟨1, some 1, "e1", "", ret ++ [⟨some 1, "e1", some ⟨.edge, 1⟩, [], 0⟩]⟩ := rfl
    rw [hstep]
    exact ih _

/-- Claim C1 counterexample: on a one-feature document whose generation
records carry a cyclic tag, the recursive `getElementHistory` walk is still
running after 50 iterations — far beyond the feature-graph depth of 1 — so
it does not terminate in steps bounded by the feature-graph depth, and no
warning ever stops it (the function maintains no visited set). -/
theorem getElementHistory_cyclic_counterexample :
    getElementHistory cyclicHistEnv 1 "e1" true false 50 = none := by
  have h : getElementHistory cyclicHistEnv 1 "e1" true false 50 =
      historyLoop cyclicHistEnv true 0 50 ⟨1, some 1, "e1", "", []⟩ := rfl
  rw [h]
  exact historyLoop_cyclic_stuck 50 []

/-- Claim C1 (as amended): `Feature::getElementHistory` itself has no cycle
detection — on the cyclic fixture the walk never completes, whatever the
iteration budget — while the visited-set of (document, tag) pairs lives in
the element-source tracing used by `getRelatedElements` (the static
`getElementSource`), which stops the walk and surfaces the
circular-element-mapping warning when a pair recurs: on the alternating
two-object cycle it finishes in the third iteration with the warning
raised and the cycle entry not re-appended. -/
theorem elementSource_cycle_detection :
    (∀ fuel : Nat, getElementHistory cyclicHistEnv 1 "e1" true false fuel = none) ∧
    (∀ fuel : Nat, 3 ≤ fuel →
      getElementSource altCycleEnv (some 1) (some 1) "e1" 0 fuel =
        (⟨some 2, some 2, [(0, "e1"), (2, "e2"), (1, "e1")],
          [(some 1, 1), (some 1, 2)], true⟩, true)) := by
  constructor
  · intro fuel
    have h : getElementHistory cyclicHistEnv 1 "e1" true false fuel =
        historyLoop cyclicHistEnv true 0 fuel ⟨1, some 1, "e1", "", []⟩ := rfl
    rw [h]
    exact historyLoop_cyclic_stuck fuel []
  · intro fuel h
    obtain ⟨n, rfl⟩ : ∃ n, fuel = n + 3 := ⟨fuel - 3, by omega⟩
    have s1 : ∀ m : Nat,
        elementSourceLoop altCycleEnv 0 (m + 1) ⟨some 1, some 1, [(0, "e1")], [], false⟩ =
          elementSourceLoop altCycleEnv 0 m
            ⟨some 2, some 2, [(0, "e1"), (2, "e2")], [(some 1, 2)], false⟩ :=
      fun _ => rfl
    have s2 : ∀ m : Nat,
        elementSourceLoop altCycleEnv 0 (m + 1)
            ⟨some 2, some 2, [(0, "e1"), (2, "e2")], [(some 1, 2)], false⟩ =
          elementSourceLoop altCycleEnv 0 m
            ⟨some 1, some 1, [(0, "e1"), (2, "e2"), (1, "e1")],
              [(some 1, 1), (some 1, 2)], false⟩ :=
      fun _ => rfl
    have s3 : ∀ m : Nat,
        elementSourceLoop altCycleEnv 0 (m + 1)
            ⟨some 1, some 1, [(0, "e1"), (2, "e2"), (1, "e1")],
              [(some 1, 1), (some 1, 2)], false⟩ =
          (⟨some 2, some 2, [(0, "e1"), (2, "e2"), (1, "e1")],
            [(some 1, 1), (some 1, 2)], true⟩, true) :=
      fun _ => rfl
    show elementSourceLoop altCycleEnv 0 (n + 3) ⟨some 1, some 1, [(0, "e1")], [], false⟩ = _
    rw [show n + 3 = (n + 2) + 1 from rfl, s1 (n + 2), s2 (n + 1), s3 n]

/-- Witness for C1's amended statement at concrete fuel values: the cyclic
history walk is unfinished at fuel 7, while the element-source walk on the
alternating cycle finishes with the warning at fuel 3. -/
theorem elementSource_cycle_detection_witness :
    getElementHistory cyclicHistEnv 1 "e1" true false 7 = none ∧
    (getElementSource altCycleEnv (some 1) (some 1) "e1" 0 3).1.warned = true ∧
    (getElementSource altCycleEnv (some 1) (some 1) "e1" 0 3).2 = true := by
  refine ⟨elementSource_cycle_detection.1 7, ?_, ?_⟩
  · rw [elementSource_cycle_detection.2 3 (by decide)]
  · rw [elementSource_cycle_detection.2 3 (by decide)]

/-- Claim C2: a durable name obtained from the resolver round-trips back to
the index name it was obtained for: a name already present in the tables
round-trips by the element-map invariant, and a freshly synthesized combo
name is stored in both the forward and the reverse table before being
returned, so both lookups succeed on it immediately. -/
theorem comboName_roundTrip (m : ElementMap) (idx : IndexedName)
    (names : List MappedName) (op : String) :
    (m.WellFormed → ∀ d, m.lookupName idx = some d → m.lookupIndex d = some idx) ∧
    ((setElementComboName m idx names op).2.lookupIndex
        (setElementComboName m idx names op).1 = some idx ∧
      (setElementComboName m idx names op).2.lookupName idx =
        some (setElementComboName m idx names op).1) := by
  refine ⟨fun wf d h => wf idx d h, ?_, ?_⟩
  · simp [setElementComboName, ElementMap.lookupIndex, assocFind]
  · simp [setElementComboName, ElementMap.lookupName, assocFind]

/-- Witness for C2 at a concrete map: a combo name synthesized on a map
that already held an unrelated entry resolves back to its index name, and
the cache-hit direction round-trips as well. -/
theorem comboName_roundTrip_witness :
    ((setElementComboName ⟨[("d0", ⟨.face, 2⟩)], [(⟨.face, 2⟩, "d0")]⟩ ⟨.wire, 1⟩
        ["e1", "e2"] "").2.lookupIndex
      (setElementComboName ⟨[("d0", ⟨.face, 2⟩)], [(⟨.face, 2⟩, "d0")]⟩ ⟨.wire, 1⟩
        ["e1", "e2"] "").1 = some ⟨.wire, 1⟩) ∧
    (ElementMap.lookupIndex ⟨[("d0", ⟨.face, 2⟩)], [(⟨.face, 2⟩, "d0")]⟩ "d0" =
      some ⟨.face, 2⟩) := by
  constructor
  · exact (comboName_roundTrip ⟨[("d0", ⟨.face, 2⟩)], [(⟨.face, 2⟩, "d0")]⟩ ⟨.wire, 1⟩
      ["e1", "e2"] "").2.1
  · exact (comboName_roundTrip ⟨[("d0", ⟨.face, 2⟩)], [(⟨.face, 2⟩, "d0")]⟩ ⟨.face, 2⟩
      ["e1", "e2"] "").1 (fun i d h => by
        simp only [ElementMap.lookupName, assocFind] at h
        split at h
        · next heq =>
          cases h
          simpa [ElementMap.lookupIndex, assocFind] using heq
        · cases h) "d0" (by simp [ElementMap.lookupName, assocFind])

end PartFeature
